import Mathlib

/-!
Verification of `submit_job.py` / `report_job.py` (job_submission repository).

The Python program is shallowly embedded: Python `dict`s (insertion
ordered) become association lists over a decidable key type, Python
values that are either a string or a (possibly nested) list become the
inductive type `Val`, and Python code that can raise becomes functions
into `Except String`.  External effects (the filesystem, the spawned
scheduler process, `datetime.now`, environment variables, the parsed
JSON config file) are passed in as explicit parameters.
-/

namespace JobSubmission

/-! ## Python dicts as insertion-ordered association lists

A Python `dict` preserves insertion order; assignment to an existing key
updates the value in place, assignment to a new key appends, and
`pop` removes the entry.  Keys are unique in a real dict; lemmas that
need this take a `NodupKeys` hypothesis. -/

variable {κ α : Type} [DecidableEq κ]

/-- `d[k]` / `d.get(k)`: first binding of `k` (unique in a real dict). -/
def dictGet : List (κ × α) → κ → Option α
  | [], _ => none
  | (k0, v0) :: rest, k => if k0 = k then some v0 else dictGet rest k

/-- Python `k in d`. -/
def dictHas (l : List (κ × α)) (k : κ) : Bool :=
  (dictGet l k).isSome

/-- Python `d[k] = v`: update in place if present, else append. -/
def dictSet : List (κ × α) → κ → α → List (κ × α)
  | [], k, v => [(k, v)]
  | (k0, v0) :: rest, k, v =>
    if k0 = k then (k0, v) :: rest else (k0, v0) :: dictSet rest k v

/-- Python `d.pop(k)` (the removal part; the caller checks presence). -/
def dictPop : List (κ × α) → κ → List (κ × α)
  | [], _ => []
  | (k0, v0) :: rest, k =>
    if k0 = k then rest else (k0, v0) :: dictPop rest k

/-- The invariant every value of Python type `dict` satisfies. -/
def NodupKeys (l : List (κ × α)) : Prop :=
  (l.map Prod.fst).Nodup

theorem dictGet_dictSet_self (l : List (κ × α)) (k : κ) (v : α) :
    dictGet (dictSet l k v) k = some v := by
  induction l with
  | nil => simp [dictSet, dictGet]
  | cons hd tl ih =>
    obtain ⟨k0, v0⟩ := hd
    by_cases h : k0 = k
    · simp [dictSet, dictGet, h]
    · simp [dictSet, dictGet, h, ih]

theorem dictGet_dictSet_ne (l : List (κ × α)) {k k' : κ} (v : α) (h : k' ≠ k) :
    dictGet (dictSet l k v) k' = dictGet l k' := by
  induction l with
  | nil => simp [dictSet, dictGet, Ne.symm h]
  | cons hd tl ih =>
    obtain ⟨k0, v0⟩ := hd
    by_cases h0 : k0 = k
    · simp [dictSet, dictGet, h0, Ne.symm h]
    · simp [dictSet, dictGet, h0, ih]

theorem dictGet_dictPop_ne (l : List (κ × α)) {k k' : κ} (h : k' ≠ k) :
    dictGet (dictPop l k) k' = dictGet l k' := by
  induction l with
  | nil => simp [dictPop]
  | cons hd tl ih =>
    obtain ⟨k0, v0⟩ := hd
    by_cases h0 : k0 = k
    · simp [dictPop, dictGet, h0, Ne.symm h]
    · simp [dictPop, dictGet, h0, ih]

theorem dictGet_eq_none_of_not_mem_keys (l : List (κ × α)) {k : κ}
    (h : k ∉ l.map Prod.fst) : dictGet l k = none := by
  induction l with
  | nil => rfl
  | cons hd tl ih =>
    obtain ⟨k0, v0⟩ := hd
    simp only [List.map_cons, List.mem_cons] at h
    push_neg at h
    simp [dictGet, Ne.symm h.1, ih h.2]

theorem dictGet_dictPop_self (l : List (κ × α)) (k : κ) (hnd : NodupKeys l) :
    dictGet (dictPop l k) k = none := by
  induction l with
  | nil => rfl
  | cons hd tl ih =>
    obtain ⟨k0, v0⟩ := hd
    simp only [NodupKeys, List.map_cons, List.nodup_cons] at hnd
    by_cases h0 : k0 = k
    · subst h0
      simpa [dictPop] using dictGet_eq_none_of_not_mem_keys tl hnd.1
    · simp [dictPop, dictGet, h0, ih hnd.2]

theorem keys_dictSet_of_has (l : List (κ × α)) (k : κ) (v : α)
    (h : dictHas l k = true) :
    (dictSet l k v).map Prod.fst = l.map Prod.fst := by
  induction l with
  | nil => simp [dictHas, dictGet] at h
  | cons hd tl ih =>
    obtain ⟨k0, v0⟩ := hd
    by_cases h0 : k0 = k
    · simp [dictSet, h0]
    · simp only [dictHas, dictGet, if_neg h0] at h
      simp [dictSet, h0, ih h]

theorem keys_dictSet_of_not_has (l : List (κ × α)) (k : κ) (v : α)
    (h : dictHas l k = false) :
    (dictSet l k v).map Prod.fst = l.map Prod.fst ++ [k] := by
  induction l with
  | nil => simp [dictSet]
  | cons hd tl ih =>
    obtain ⟨k0, v0⟩ := hd
    by_cases h0 : k0 = k
    · subst h0
      simp [dictHas, dictGet] at h
    · simp only [dictHas, dictGet, if_neg h0] at h
      simp [dictSet, h0, ih h]

theorem dictHas_iff_exists (l : List (κ × α)) (k : κ) :
    dictHas l k = true ↔ ∃ v, dictGet l k = some v := by
  simp [dictHas, Option.isSome_iff_exists]

/-! ## Python values

The scheduler-argument values in `submit_job.py` are either strings or
(possibly nested, through the default-merging step) lists. -/

inductive Val where
  | scalar : String → Val
  | list : List Val → Val

/-- The scheduler-argument mapping: Python `dict` of flag name → value. -/
abbrev Args := List (String × Val)

/-- One accumulation step of `arglist2dicts` on the value side:
`args[k] + [v] if isinstance(args[k], list) else [args[k], v]`,
or plain `v` when the key was absent. -/
def addValue : Option Val → String → Val
  | none, v => .scalar v
  | some (.list vs), v => .list (vs ++ [.scalar v])
  | some v0, v => .list [v0, .scalar v]

/-- The whole accumulation step of `arglist2dicts` for one (key, value)
pair: both Python branches are an assignment `args[k] = ...`. -/
def addArg (args : Args) (k v : String) : Args :=
  dictSet args k (addValue (dictGet args k) v)

/-! ## `arglist2dicts`: tokens → (args dict, flags list) -/

/-- Python `cur_arg.startswith("-")`. -/
def startsDash (s : String) : Bool :=
  match s.data with
  | c :: _ => c = '-'
  | [] => false

/-- Python `"=" in cur_arg`. -/
def hasEq (s : String) : Bool :=
  s.data.contains '='

/-- Python `s.split("=", maxsplit=1)` on the character list: the part
before the first `'='` and the part after it. -/
def splitEqChars : List Char → List Char × List Char
  | [] => ([], [])
  | c :: rest =>
    if c = '=' then ([], rest)
    else
      let p := splitEqChars rest
      (c :: p.1, p.2)

/-- Key part of `cur_arg.split("=", maxsplit=1)`. -/
def eqKey (s : String) : String :=
  String.mk (splitEqChars s.data).1

/-- Value part of `cur_arg.split("=", maxsplit=1)`. -/
def eqVal (s : String) : String :=
  String.mk (splitEqChars s.data).2

/-- The `while` loop of `arglist2dicts`, with the mutable `args`/`flags`
as accumulators.  The index stepping `i += 1` / `i += 2` becomes
recursion on the remaining token list. -/
def arglist2dictsAux : List String → Args → List String →
    Except String (Args × List String)
  | [], args, flags => .ok (args, flags)
  | cur :: rest, args, flags =>
    if startsDash cur = false then
      .error ("Argument should start with - or -- (" ++ cur ++ ")")
    else if hasEq cur then
      arglist2dictsAux rest (addArg args (eqKey cur) (eqVal cur)) flags
    else
      match rest with
      | [] => .ok (args, flags ++ [cur])
      | next :: rest2 =>
        if startsDash next then
          arglist2dictsAux (next :: rest2) args (flags ++ [cur])
        else
          arglist2dictsAux rest2 (addArg args cur next) flags

/-- `arglist2dicts(arg_list)` from `submit_job.py`. -/
def arglist2dicts (arg_list : List String) :
    Except String (Args × List String) :=
  arglist2dictsAux arg_list [] []

/-- Specification-side reading of the same token grammar: the (key,
value) pairs a token sequence supplies, in encounter order, together
with the flags — no dict accumulation.  Used to say "the key appears n
times" when stating C1. -/
def tokenPairs : List String → Except String (List (String × String) × List String)
  | [] => .ok ([], [])
  | cur :: rest =>
    if startsDash cur = false then
      .error ("Argument should start with - or -- (" ++ cur ++ ")")
    else if hasEq cur then
      (tokenPairs rest).map (fun pf => ((eqKey cur, eqVal cur) :: pf.1, pf.2))
    else
      match rest with
      | [] => .ok ([], [cur])
      | next :: rest2 =>
        if startsDash next then
          (tokenPairs (next :: rest2)).map (fun pf => (pf.1, cur :: pf.2))
        else
          (tokenPairs rest2).map (fun pf => ((cur, next) :: pf.1, pf.2))

/-- The values supplied for key `k`, in encounter order. -/
def valuesOf (ps : List (String × String)) (k : String) : List String :=
  match ps with
  | [] => []
  | p :: rest => if p.1 = k then p.2 :: valuesOf rest k else valuesOf rest k

theorem arglist2dictsAux_eq_tokenPairs :
    ∀ (toks : List String) (args : Args) (flags : List String),
    arglist2dictsAux toks args flags =
      (tokenPairs toks).map
        (fun pf => (pf.1.foldl (fun a p => addArg a p.1 p.2) args, flags ++ pf.2))
  | [], args, flags => by
      simp [arglist2dictsAux, tokenPairs, Except.map]
  | [cur], args, flags => by
      by_cases h1 : startsDash cur = false
      · simp [arglist2dictsAux, tokenPairs, h1, Except.map]
      · by_cases h2 : hasEq cur
        · simp [arglist2dictsAux, tokenPairs, h1, h2, Except.map]
        · simp [arglist2dictsAux, tokenPairs, h1, h2, Except.map]
  | cur :: next :: rest2, args, flags => by
      by_cases h1 : startsDash cur = false
      · simp [arglist2dictsAux, tokenPairs, h1, Except.map]
      · by_cases h2 : hasEq cur
        · have ih := arglist2dictsAux_eq_tokenPairs (next :: rest2)
            (addArg args (eqKey cur) (eqVal cur)) flags
          have hstep : arglist2dictsAux (cur :: next :: rest2) args flags
              = arglist2dictsAux (next :: rest2)
                  (addArg args (eqKey cur) (eqVal cur)) flags := by
            simp [arglist2dictsAux, h1, h2]
          rw [hstep, ih]
          cases htp : tokenPairs (next :: rest2) with
          | error e => simp [tokenPairs, h1, h2, htp, Except.map]
          | ok pf => simp [tokenPairs, h1, h2, htp, Except.map]
        · by_cases h3 : startsDash next = true
          · have ih := arglist2dictsAux_eq_tokenPairs (next :: rest2) args
              (flags ++ [cur])
            have hstep : arglist2dictsAux (cur :: next :: rest2) args flags
                = arglist2dictsAux (next :: rest2) args (flags ++ [cur]) := by
              simp [arglist2dictsAux, h1, h2, h3]
            rw [hstep, ih]
            cases htp : tokenPairs (next :: rest2) with
            | error e => simp [tokenPairs, h1, h2, h3, htp, Except.map]
            | ok pf => simp [tokenPairs, h1, h2, h3, htp, Except.map]
          · have ih := arglist2dictsAux_eq_tokenPairs rest2
              (addArg args cur next) flags
            have hstep : arglist2dictsAux (cur :: next :: rest2) args flags
                = arglist2dictsAux rest2 (addArg args cur next) flags := by
              simp [arglist2dictsAux, h1, h2, h3]
            rw [hstep, ih]
            cases htp : tokenPairs rest2 with
            | error e => simp [tokenPairs, h1, h2, h3, htp, Except.map]
            | ok pf => simp [tokenPairs, h1, h2, h3, htp, Except.map]

theorem dictGet_foldl_addArg (ps : List (String × String)) :
    ∀ (args : Args) (k : String),
    dictGet (ps.foldl (fun a p => addArg a p.1 p.2) args) k =
      (valuesOf ps k).foldl (fun o v => some (addValue o v)) (dictGet args k) := by
  induction ps with
  | nil => intro args k; rfl
  | cons p rest ih =>
    intro args k
    simp only [List.foldl_cons, valuesOf]
    rw [ih]
    by_cases h : p.1 = k
    · subst h
      rw [if_pos rfl, List.foldl_cons]
      have : dictGet (addArg args p.1 p.2) p.1 =
          some (addValue (dictGet args p.1) p.2) := by
        simp [addArg, dictGet_dictSet_self]
      rw [this]
    · rw [if_neg h]
      have : dictGet (addArg args p.1 p.2) k = dictGet args k := by
        simp only [addArg]
        exact dictGet_dictSet_ne _ _ (fun e => h e.symm)
      rw [this]

theorem foldl_addValue_list (vs : List String) :
    ∀ acc : List Val,
    vs.foldl (fun o v => some (addValue o v)) (some (.list acc)) =
      some (.list (acc ++ vs.map Val.scalar)) := by
  induction vs with
  | nil => intro acc; simp
  | cons v rest ih =>
    intro acc
    rw [List.foldl_cons]
    show List.foldl (fun o v => some (addValue o v))
        (some (Val.list (acc ++ [Val.scalar v]))) rest =
      some (Val.list (acc ++ Val.scalar v :: List.map Val.scalar rest))
    rw [ih]
    simp

theorem collapse_of_two_le (vs : List String) (h : 2 ≤ vs.length) :
    vs.foldl (fun o v => some (addValue o v)) none =
      some (.list (vs.map Val.scalar)) := by
  match vs with
  | v1 :: v2 :: rest =>
    rw [List.foldl_cons, List.foldl_cons]
    show List.foldl (fun o v => some (addValue o v))
        (some (Val.list [Val.scalar v1, Val.scalar v2])) rest = _
    rw [foldl_addValue_list rest [Val.scalar v1, Val.scalar v2]]
    simp

/-- C1: for every scheduler-argument token sequence parsed by
`arglist2dicts`, a key supplied exactly once maps to a scalar string
value, and a key supplied two or more times maps to the ordered list of
all its supplied values in encounter order (encoded as the list of
scalars, so the first occurrence is a sequence element rather than a
bare scalar once a second occurrence exists). -/
theorem arglist2dicts_key_multiplicity
    (toks : List String) (args : Args) (flags : List String)
    (ps : List (String × String)) (fs : List String)
    (hparse : arglist2dicts toks = .ok (args, flags))
    (hpairs : tokenPairs toks = .ok (ps, fs)) (k : String) :
    (∀ v, valuesOf ps k = [v] → dictGet args k = some (.scalar v)) ∧
    (2 ≤ (valuesOf ps k).length →
      dictGet args k = some (.list ((valuesOf ps k).map Val.scalar))) := by
  rw [arglist2dicts, arglist2dictsAux_eq_tokenPairs, hpairs] at hparse
  simp only [Except.map, Except.ok.injEq, Prod.mk.injEq] at hparse
  obtain ⟨hargs, hflags⟩ := hparse
  subst hargs
  rw [dictGet_foldl_addArg]
  constructor
  · intro v hv
    rw [hv]
    rfl
  · intro h2
    exact collapse_of_two_le _ h2

/-- Witness for C1 at the tokens `-J a --time 1 --time=2`: the key
`--time` appears twice and resolves to the ordered list of both values;
the key `-J` appears once and resolves to the bare scalar. -/
theorem arglist2dicts_key_multiplicity_witness :
    dictGet [("-J", Val.scalar "a"),
             ("--time", Val.list [Val.scalar "1", Val.scalar "2"])] "--time" =
      some (.list [Val.scalar "1", Val.scalar "2"]) ∧
    dictGet [("-J", Val.scalar "a"),
             ("--time", Val.list [Val.scalar "1", Val.scalar "2"])] "-J" =
      some (.scalar "a") := by
  have h := arglist2dicts_key_multiplicity
    ["-J", "a", "--time", "1", "--time=2"]
    [("-J", Val.scalar "a"), ("--time", Val.list [Val.scalar "1", Val.scalar "2"])]
    []
    [("-J", "a"), ("--time", "1"), ("--time", "2")] []
    rfl rfl
  refine ⟨?_, ?_⟩
  · have h2 := (h "--time").2 (by decide)
    exact h2.trans (by rfl)
  · exact (h "-J").1 "a" rfl

/-! ## `default_scheduler_args` (lines 456-495)

The parsed `default.json` is passed as a parameter (file loading is an
external effect), as are the config-file path used in error messages
and the `_MY_SCHEDULER_EMAIL` environment variable. -/

/-- Python `len(v)` on a string-or-list JSON value. -/
def valLen : Val → Nat
  | .scalar s => s.length
  | .list vs => vs.length

/-- `DEFAULT_SCHEDULER_ARGS["--mail-user"] == "<YOUR_EMAIL_GOES_HERE>"`:
Python `==` between a list and a string is `False`. -/
def isPlaceholder : Val → Bool
  | .scalar s => s = "<YOUR_EMAIL_GOES_HERE>"
  | .list _ => false

/-- Lines 467-483: the merged `DEFAULT_SCHEDULER_ARGS` dict — the
cluster-independent `__all__` section first (with the non-empty
assertion on its `--mail-user`, if present), then the cluster-specific
section written on top.  `json_data[cluster_name]` raises `KeyError`
when that section is missing. -/
def buildDefaultArgs (json_data : List (String × Args))
    (config_file_path cluster_name : String) : Except String Args := do
  let base ←
    match dictGet json_data "__all__" with
    | none => pure ([] : Args)
    | some d =>
      match dictGet d "--mail-user" with
      | none => pure (d.foldl (fun acc kv => dictSet acc kv.1 kv.2) ([] : Args))
      | some mv =>
        if valLen mv > 0 then
          pure (d.foldl (fun acc kv => dictSet acc kv.1 kv.2) ([] : Args))
        else
          .error ("The email address is not set in " ++ config_file_path)
  match dictGet json_data cluster_name with
  | none => .error ("KeyError: " ++ cluster_name)
  | some d => pure (d.foldl (fun acc kv => dictSet acc kv.1 kv.2) base)

/-- `default_scheduler_args(cluster_name)`: builds the merged defaults,
then checks the `--mail-user` field (lines 484-495).  Note the source
raises when the key is absent WITHOUT consulting the environment; the
`_MY_SCHEDULER_EMAIL` override is read only in the placeholder branch. -/
def default_scheduler_args (json_data : List (String × Args))
    (config_file_path cluster_name : String)
    (env_scheduler_email : Option String) : Except String Args := do
  let dflt ← buildDefaultArgs json_data config_file_path cluster_name
  match dictGet dflt "--mail-user" with
  | none => .error ("The email address is not set in " ++ config_file_path)
  | some mv =>
    if isPlaceholder mv then
      match env_scheduler_email with
      | none =>
        .error ("The email address is not set in " ++ config_file_path ++
          " and was not set as an enironment variable in _MY_SCHEDULER_EMAIL")
      | some mail_adr => .ok (dictSet dflt "--mail-user" (.scalar mail_adr))
    else
      .ok dflt

/-- C7, counterexample: a config whose merged defaults lack
`--mail-user` entirely, with the `_MY_SCHEDULER_EMAIL` environment
override available.  The claim says the override is substituted; the
code raises unconditionally (line 484-485 never looks at the
environment). -/
theorem default_mail_absent_env_ignored_counterexample :
    default_scheduler_args [("c", [("-J", Val.scalar "x")])]
        "default.json" "c" (some "user@host") =
      .error "The email address is not set in default.json" := by
  rfl

/-- C7 (amended): if `--mail-user` is absent after merging the
cluster-independent and cluster-specific defaults, resolution fails
regardless of the environment; the environment override is substituted
only when the configured value equals the documented placeholder, and a
placeholder with no environment override is a startup failure. -/
theorem default_scheduler_args_mail_user :
    (∀ (json_data : List (String × Args)) (cfg cluster : String) (D : Args)
        (env : Option String),
        buildDefaultArgs json_data cfg cluster = .ok D →
        dictGet D "--mail-user" = none →
        default_scheduler_args json_data cfg cluster env =
          .error ("The email address is not set in " ++ cfg)) ∧
    (∀ (json_data : List (String × Args)) (cfg cluster : String) (D : Args)
        (mv : Val) (m : String),
        buildDefaultArgs json_data cfg cluster = .ok D →
        dictGet D "--mail-user" = some mv → isPlaceholder mv = true →
        default_scheduler_args json_data cfg cluster (some m) =
          .ok (dictSet D "--mail-user" (.scalar m))) ∧
    (∀ (json_data : List (String × Args)) (cfg cluster : String) (D : Args)
        (mv : Val),
        buildDefaultArgs json_data cfg cluster = .ok D →
        dictGet D "--mail-user" = some mv → isPlaceholder mv = true →
        default_scheduler_args json_data cfg cluster none =
          .error ("The email address is not set in " ++ cfg ++
            " and was not set as an enironment variable in _MY_SCHEDULER_EMAIL")) ∧
    (∀ (json_data : List (String × Args)) (cfg cluster : String) (D : Args)
        (mv : Val) (env : Option String),
        buildDefaultArgs json_data cfg cluster = .ok D →
        dictGet D "--mail-user" = some mv → isPlaceholder mv = false →
        default_scheduler_args json_data cfg cluster env = .ok D) := by
  refine ⟨?_, ?_, ?_, ?_⟩
  · intro json_data cfg cluster D env hb hm
    simp [default_scheduler_args, hb, hm, Bind.bind, Except.bind]
  · intro json_data cfg cluster D mv m hb hm hp
    simp [default_scheduler_args, hb, hm, hp, Bind.bind, Except.bind]
  · intro json_data cfg cluster D mv hb hm hp
    simp [default_scheduler_args, hb, hm, hp, Bind.bind, Except.bind]
  · intro json_data cfg cluster D mv env hb hm hp
    simp [default_scheduler_args, hb, hm, hp, Bind.bind, Except.bind]

/-- Witness for C7 (amended) at a concrete config holding the
placeholder in `__all__`: the environment override is substituted, and
with no override resolution fails. -/
theorem default_scheduler_args_mail_user_witness :
    default_scheduler_args
        [("__all__", [("--mail-user", Val.scalar "<YOUR_EMAIL_GOES_HERE>")]),
         ("c", [("-p", Val.scalar "gpu")])]
        "default.json" "c" (some "user@host") =
      .ok [("--mail-user", Val.scalar "user@host"), ("-p", Val.scalar "gpu")] ∧
    default_scheduler_args
        [("__all__", [("--mail-user", Val.scalar "<YOUR_EMAIL_GOES_HERE>")]),
         ("c", [("-p", Val.scalar "gpu")])]
        "default.json" "c" none =
      .error ("The email address is not set in default.json" ++
        " and was not set as an enironment variable in _MY_SCHEDULER_EMAIL") := by
  constructor
  · have h := default_scheduler_args_mail_user.2.1
      [("__all__", [("--mail-user", Val.scalar "<YOUR_EMAIL_GOES_HERE>")]),
       ("c", [("-p", Val.scalar "gpu")])]
      "default.json" "c"
      [("--mail-user", Val.scalar "<YOUR_EMAIL_GOES_HERE>"), ("-p", Val.scalar "gpu")]
      (Val.scalar "<YOUR_EMAIL_GOES_HERE>") "user@host" rfl rfl rfl
    exact h.trans (by rfl)
  · have h := default_scheduler_args_mail_user.2.2.1
      [("__all__", [("--mail-user", Val.scalar "<YOUR_EMAIL_GOES_HERE>")]),
       ("c", [("-p", Val.scalar "gpu")])]
      "default.json" "c"
      [("--mail-user", Val.scalar "<YOUR_EMAIL_GOES_HERE>"), ("-p", Val.scalar "gpu")]
      (Val.scalar "<YOUR_EMAIL_GOES_HERE>") rfl rfl rfl
    exact h.trans (by rfl)

/-! ## The default/user merge in `get_scheduler_handler` (lines 427-438)
and `SLURMHandler.resolve_multi_args` (lines 349-352) -/

/-- One iteration of the merge loop: for a user key already present,
`updated_args[k] + [v] if isinstance(updated_args[k], list) else
[updated_args[k], v]`; a new key is assigned directly. -/
def mergeOne (acc : Args) (kv : String × Val) : Args :=
  match dictGet acc kv.1 with
  | none => dictSet acc kv.1 kv.2
  | some (.list vs) => dictSet acc kv.1 (.list (vs ++ [kv.2]))
  | some v0 => dictSet acc kv.1 (.list [v0, kv.2])

/-- The whole merge loop `for k, v in scheduler_args.items(): ...`
starting from the defaults. -/
def mergeDefaultArgs (updated_args scheduler_args : Args) : Args :=
  scheduler_args.foldl mergeOne updated_args

/-- Specification-side description of one merged value: defaults first,
the user value appended as a single element. -/
def mergeStep : Val → Val → Val
  | .list vs, vu => .list (vs ++ [vu])
  | v0, vu => .list [v0, vu]

/-- `v[-1] if isinstance(v, list) else v`; Python raises `IndexError`
on an empty list. -/
def lastOrSelf : Val → Except String Val
  | .list vs =>
    match vs.getLast? with
    | some x => .ok x
    | none => .error "IndexError: list index out of range"
  | v => .ok v

namespace SLURMHandler

/-- `SLURMHandler.resolve_multi_args`: the dict comprehension
`{k: v[-1] if isinstance(v, list) else v for (k, v) in self.args.items()}`. -/
def resolve_multi_args : Args → Except String Args
  | [] => .ok []
  | (k, v) :: rest =>
    match lastOrSelf v with
    | .error e => .error e
    | .ok v' =>
      match resolve_multi_args rest with
      | .error e => .error e
      | .ok rest' => .ok ((k, v') :: rest')

end SLURMHandler

theorem dictGet_mergeOne_self (acc : Args) (kv : String × Val) :
    dictGet (mergeOne acc kv) kv.1 =
      some (match dictGet acc kv.1 with
            | none => kv.2
            | some vd => mergeStep vd kv.2) := by
  rcases h : dictGet acc kv.1 with _ | vd
  · simp [mergeOne, h, dictGet_dictSet_self]
  · cases vd <;> simp [mergeOne, mergeStep, h, dictGet_dictSet_self]

theorem dictGet_mergeOne_ne (acc : Args) (kv : String × Val) {k : String}
    (h : k ≠ kv.1) : dictGet (mergeOne acc kv) k = dictGet acc k := by
  rcases h0 : dictGet acc kv.1 with _ | vd
  · simp [mergeOne, h0, dictGet_dictSet_ne _ _ h]
  · cases vd <;> simp [mergeOne, h0, dictGet_dictSet_ne _ _ h]

theorem dictGet_mergeDefaultArgs_not_mem :
    ∀ (user defaults : Args) (k : String), k ∉ user.map Prod.fst →
      dictGet (mergeDefaultArgs defaults user) k = dictGet defaults k := by
  intro user
  induction user with
  | nil => intro defaults k _; rfl
  | cons kv rest ih =>
    intro defaults k hk
    simp only [List.map_cons, List.mem_cons] at hk
    push_neg at hk
    have hstep : mergeDefaultArgs defaults (kv :: rest) =
        mergeDefaultArgs (mergeOne defaults kv) rest := rfl
    rw [hstep, ih _ _ hk.2, dictGet_mergeOne_ne _ _ hk.1]

theorem dictGet_mergeDefaultArgs_mem :
    ∀ (user defaults : Args) (k : String) (vu : Val),
      NodupKeys user → (k, vu) ∈ user →
      dictGet (mergeDefaultArgs defaults user) k =
        some (match dictGet defaults k with
              | none => vu
              | some vd => mergeStep vd vu) := by
  intro user
  induction user with
  | nil => intro defaults k vu _ hm; simp at hm
  | cons kv rest ih =>
    intro defaults k vu hnd hm
    simp only [NodupKeys, List.map_cons, List.nodup_cons] at hnd
    have hstep : mergeDefaultArgs defaults (kv :: rest) =
        mergeDefaultArgs (mergeOne defaults kv) rest := rfl
    rcases List.mem_cons.mp hm with heq | hmem
    · have hk : kv.1 = k := by rw [← heq]
      have hrest : k ∉ rest.map Prod.fst := by rw [← hk]; exact hnd.1
      rw [hstep, dictGet_mergeDefaultArgs_not_mem rest _ k hrest, ← hk]
      have := dictGet_mergeOne_self defaults kv
      rw [this]
      have hv : kv.2 = vu := by rw [← heq]
      rw [hv]
    · have hk : kv.1 ≠ k := by
        intro e
        apply hnd.1
        rw [e]
        exact List.mem_map.mpr ⟨(k, vu), hmem, rfl⟩
      rw [hstep, ih _ _ _ hnd.2 hmem, dictGet_mergeOne_ne _ _ (Ne.symm hk)]

theorem resolve_multi_args_get :
    ∀ (args args' : Args),
      SLURMHandler.resolve_multi_args args = .ok args' → ∀ k : String,
      (dictGet args k = none → dictGet args' k = none) ∧
      (∀ v, dictGet args k = some v →
        ∃ w, lastOrSelf v = .ok w ∧ dictGet args' k = some w) := by
  intro args
  induction args with
  | nil =>
    intro args' h k
    simp only [SLURMHandler.resolve_multi_args, Except.ok.injEq] at h
    subst h
    exact ⟨fun _ => rfl, fun v hv => by simp [dictGet] at hv⟩
  | cons kv rest ih =>
    intro args' h k
    obtain ⟨k0, v0⟩ := kv
    rcases hv : lastOrSelf v0 with e | w0 <;>
      rcases hr : SLURMHandler.resolve_multi_args rest with e' | rest' <;>
      simp [SLURMHandler.resolve_multi_args, hv, hr] at h
    subst h
    by_cases hk : k0 = k
    · subst hk
      refine ⟨fun hn => by simp [dictGet] at hn, fun v hv' => ?_⟩
      simp only [dictGet, if_pos rfl] at hv' ⊢
      exact ⟨w0, by rw [← Option.some_inj.mp hv']; exact ⟨hv, rfl⟩⟩
    · have h1 := (ih rest' hr k).1
      have h2 := (ih rest' hr k).2
      refine ⟨fun hn => ?_, fun v hv' => ?_⟩
      · simp only [dictGet, if_neg hk] at hn ⊢
        exact h1 hn
      · simp only [dictGet, if_neg hk] at hv' ⊢
        exact h2 v hv'

/-- C2, counterexample: defaults `{--time: "1"}` merged with the user
mapping `{--time: ["2", "3"]}` (the key was supplied twice on the
command line).  The merged value is the nested list
`["1", ["2", "3"]]`, and `resolve_multi_args` keeps its LAST ELEMENT,
the list `["2", "3"]` — not a single scalar, and not the last user
value `"3"` as the claim requires. -/
theorem merge_then_resolve_counterexample :
    SLURMHandler.resolve_multi_args
        (mergeDefaultArgs [("--time", Val.scalar "1")]
          [("--time", Val.list [Val.scalar "2", Val.scalar "3"])]) =
      .ok [("--time", Val.list [Val.scalar "2", Val.scalar "3"])] ∧
    Val.list [Val.scalar "2", Val.scalar "3"] ≠ Val.scalar "3" := by
  exact ⟨rfl, fun h => nomatch h⟩

/-- C2 (amended): merging places same-key values into a multi-valued
sequence with the default values first and the user value appended
(never replacing), and `resolve_multi_args` replaces every list value
by its last element — which is a single scalar exactly when that last
element is scalar.  Hence a user-supplied scalar value wins over the
defaults, and for a key with no default the last user occurrence wins;
a defaulted key that the user supplied several times instead resolves
to the whole list of user-supplied values. -/
theorem merge_then_resolve_last_element :
    (∀ (defaults user : Args) (k : String) (vd vu : Val),
        NodupKeys user → (k, vu) ∈ user → dictGet defaults k = some vd →
        dictGet (mergeDefaultArgs defaults user) k = some (mergeStep vd vu)) ∧
    (∀ (defaults user : Args) (k : String) (vu : Val),
        NodupKeys user → (k, vu) ∈ user → dictGet defaults k = none →
        dictGet (mergeDefaultArgs defaults user) k = some vu) ∧
    (∀ (args args' : Args) (k : String) (vs : List Val) (w : Val),
        SLURMHandler.resolve_multi_args args = .ok args' →
        dictGet args k = some (.list vs) → vs.getLast? = some w →
        dictGet args' k = some w) ∧
    (∀ (defaults user args' : Args) (k : String) (vd : Val) (u : String),
        NodupKeys user → (k, Val.scalar u) ∈ user →
        dictGet defaults k = some vd →
        SLURMHandler.resolve_multi_args (mergeDefaultArgs defaults user) =
          .ok args' →
        dictGet args' k = some (.scalar u)) ∧
    (∀ (defaults user args' : Args) (k : String) (vs : List Val) (w : Val),
        NodupKeys user → (k, Val.list vs) ∈ user →
        dictGet defaults k = none → vs.getLast? = some w →
        SLURMHandler.resolve_multi_args (mergeDefaultArgs defaults user) =
          .ok args' →
        dictGet args' k = some w) := by
  have hmerge_some : ∀ (defaults user : Args) (k : String) (vd vu : Val),
      NodupKeys user → (k, vu) ∈ user → dictGet defaults k = some vd →
      dictGet (mergeDefaultArgs defaults user) k = some (mergeStep vd vu) := by
    intro defaults user k vd vu hnd hm hd
    rw [dictGet_mergeDefaultArgs_mem user defaults k vu hnd hm, hd]
  have hmerge_none : ∀ (defaults user : Args) (k : String) (vu : Val),
      NodupKeys user → (k, vu) ∈ user → dictGet defaults k = none →
      dictGet (mergeDefaultArgs defaults user) k = some vu := by
    intro defaults user k vu hnd hm hd
    rw [dictGet_mergeDefaultArgs_mem user defaults k vu hnd hm, hd]
  have hres : ∀ (args args' : Args) (k : String) (vs : List Val) (w : Val),
      SLURMHandler.resolve_multi_args args = .ok args' →
      dictGet args k = some (.list vs) → vs.getLast? = some w →
      dictGet args' k = some w := by
    intro args args' k vs w hok hget hlast
    obtain ⟨w', hw', hget'⟩ := (resolve_multi_args_get args args' hok k).2 _ hget
    have : Except.ok (ε := String) w = .ok w' := by
      rw [← hw']
      simp [lastOrSelf, hlast]
    rw [hget', ← Except.ok.inj this]
  refine ⟨hmerge_some, hmerge_none, hres, ?_, ?_⟩
  · intro defaults user args' k vd u hnd hm hd hok
    have hmv := hmerge_some defaults user k vd (Val.scalar u) hnd hm hd
    cases vd with
    | scalar s =>
      refine hres _ _ k [Val.scalar s, Val.scalar u] (Val.scalar u) hok
        (by simpa [mergeStep] using hmv) ?_
      show ([Val.scalar s] ++ [Val.scalar u]).getLast? = _
      exact List.getLast?_concat _
    | list vs =>
      exact hres _ _ k (vs ++ [Val.scalar u]) (Val.scalar u) hok
        (by simpa [mergeStep] using hmv) (List.getLast?_concat _)
  · intro defaults user args' k vs w hnd hm hd hlast hok
    exact hres _ _ k _ _ hok (hmerge_none defaults user k (Val.list vs) hnd hm hd) hlast

/-- Witness for C2 (amended): a defaulted key supplied once by the user
resolves to the user's scalar, and an undefaulted key supplied twice
resolves to the last occurrence. -/
theorem merge_then_resolve_last_element_witness :
    dictGet [("-p", Val.scalar "user-part")] "-p" = some (.scalar "user-part") ∧
    dictGet [("--time", Val.scalar "3")] "--time" = some (.scalar "3") := by
  constructor
  · exact merge_then_resolve_last_element.2.2.2.1
      [("-p", Val.scalar "default-part")] [("-p", Val.scalar "user-part")]
      [("-p", Val.scalar "user-part")] "-p" (Val.scalar "default-part")
      "user-part" (by simp [NodupKeys]) (List.mem_singleton.mpr rfl) rfl rfl
  · exact merge_then_resolve_last_element.2.2.2.2
      [] [("--time", Val.list [Val.scalar "2", Val.scalar "3"])]
      [("--time", Val.scalar "3")] "--time"
      [Val.scalar "2", Val.scalar "3"] (Val.scalar "3")
      (by simp [NodupKeys]) (List.mem_singleton.mpr rfl) rfl rfl rfl

/-! ## `PBSHandler.resolve_multi_args` (lines 395-419) -/

/-- Python `s.split(",")` (single-character separator) on the character
list: `""` gives `[""]`, a trailing comma gives a trailing `""`. -/
def splitCommaChars : List Char → List (List Char)
  | [] => [[]]
  | c :: rest =>
    if c = ',' then [] :: splitCommaChars rest
    else
      match splitCommaChars rest with
      | head :: tail => (c :: head) :: tail
      | [] => [[c]]

/-- Python `resource_list.split(",")`. -/
def splitComma (s : String) : List String :=
  (splitCommaChars s.data).map String.mk

/-- Python `k, v = resource.split("=", maxsplit=1)`: unpacking raises
`ValueError` when the token has no `'='`. -/
def splitEq1 (s : String) : Except String (String × String) :=
  if hasEq s then .ok (eqKey s, eqVal s)
  else .error ("ValueError: not enough values to unpack: " ++ s)

/-- The resource-insertion loop `resource_dict[k] = v` over a flattened
token sequence (the two nested `for` loops thread the dict through the
tokens in exactly this order). -/
def insertResources (rd : List (String × String)) :
    List String → Except String (List (String × String))
  | [] => .ok rd
  | r :: rest =>
    match splitEq1 r with
    | .error e => .error e
    | .ok kv => insertResources (dictSet rd kv.1 kv.2) rest

namespace PBSHandler

/-- Lines 409-419: build `resource_dict` from the `-l` value list and
assemble it back into a comma-joined `k=v` string. -/
def mergeResourceLists (ls : List String) : Except String String :=
  match insertResources [] ((ls.map splitComma).flatten) with
  | .error e => .error e
  | .ok rd =>
    .ok (String.intercalate "," (rd.map (fun kv => kv.1 ++ "=" ++ kv.2)))

/-- The dict comprehension of lines 396-400: collapse list values to
their last element for every key except `-l` (the filter drops `-l`
before the value expression runs). -/
def collapseNonL : Args → Except String Args
  | [] => .ok []
  | (k, v) :: rest =>
    if k = "-l" then collapseNonL rest
    else
      match lastOrSelf v with
      | .error e => .error e
      | .ok v' =>
        match collapseNonL rest with
        | .error e => .error e
        | .ok rest' => .ok ((k, v') :: rest')

/-- Python `resource_list.split(",")` requires each element of the `-l`
list to be a string; on a nested list `.split` raises
`AttributeError`. -/
def toStringList : List Val → Except String (List String)
  | [] => .ok []
  | .scalar s :: rest =>
    (toStringList rest).map (fun ss => s :: ss)
  | .list _ :: _ => .error "AttributeError: list object has no attribute split"

/-- `PBSHandler.resolve_multi_args`: collapse non-`-l` values, reattach
`-l` (appended last), wrap a non-list `-l` into a one-element list,
then merge the comma-separated resources into one string. -/
def resolve_multi_args (args : Args) : Except String Args :=
  match collapseNonL args with
  | .error e => .error e
  | .ok args_updated =>
    match dictGet args "-l" with
    | none => .ok args_updated
    | some lv =>
      let args1 := dictSet args_updated "-l" lv
      let ls := match lv with | .list vs => vs | v => [v]
      match toStringList ls with
      | .error e => .error e
      | .ok ss =>
        match mergeResourceLists ss with
        | .error e => .error e
        | .ok res => .ok (dictSet args1 "-l" (.scalar res))

end PBSHandler

/-- Specification-side reading of a flattened resource-token sequence:
the (resource key, value) pairs in encounter order. -/
def resourcePairs : List String → Except String (List (String × String))
  | [] => .ok []
  | r :: rest =>
    match splitEq1 r with
    | .error e => .error e
    | .ok kv =>
      match resourcePairs rest with
      | .error e => .error e
      | .ok ps => .ok (kv :: ps)

/-- Specification-side first-appearance ordering of keys, given the
keys already seen. -/
def firstNewKeys (seen : List String) : List String → List String
  | [] => []
  | k :: ks =>
    if k ∈ seen then firstNewKeys seen ks
    else k :: firstNewKeys (seen ++ [k]) ks

theorem dictHas_iff_mem_keys (l : List (κ × α)) (k : κ) :
    dictHas l k = true ↔ k ∈ l.map Prod.fst := by
  induction l with
  | nil => simp [dictHas, dictGet]
  | cons hd tl ih =>
    obtain ⟨k0, v0⟩ := hd
    by_cases h0 : k0 = k
    · subst h0
      simp [dictHas, dictGet]
    · simp [dictHas, dictGet, h0, Ne.symm h0, ← ih]

theorem insertResources_eq_resourcePairs :
    ∀ (toks : List String) (rd : List (String × String)),
    insertResources rd toks =
      (resourcePairs toks).map
        (fun ps => ps.foldl (fun d p => dictSet d p.1 p.2) rd) := by
  intro toks
  induction toks with
  | nil => intro rd; rfl
  | cons r rest ih =>
    intro rd
    rcases hr : splitEq1 r with e | kv
    · simp [insertResources, resourcePairs, hr, Except.map]
    · rw [insertResources, hr]
      show insertResources (dictSet rd kv.1 kv.2) rest = _
      rw [ih]
      cases hp : resourcePairs rest <;>
        simp [resourcePairs, hr, hp, Except.map]

theorem getLast?_cons_of_some {β : Type} {l : List β} {v : β} (a : β)
    (h : l.getLast? = some v) : (a :: l).getLast? = some v := by
  cases l with
  | nil => simp at h
  | cons b bs => rw [List.getLast?_cons_cons]; exact h

theorem dictGet_foldl_dictSet (ps : List (String × String)) :
    ∀ (d0 : List (String × String)) (k : String),
    dictGet (ps.foldl (fun d p => dictSet d p.1 p.2) d0) k =
      match (valuesOf ps k).getLast? with
      | some v => some v
      | none => dictGet d0 k := by
  induction ps with
  | nil => intro d0 k; rfl
  | cons p rest ih =>
    intro d0 k
    rw [List.foldl_cons, ih]
    by_cases h : p.1 = k
    · subst h
      rw [valuesOf, if_pos rfl]
      cases hvs : valuesOf rest p.1 with
      | nil => simp [dictGet_dictSet_self]
      | cons v' vs' =>
        have hsome : ∃ w, (v' :: vs').getLast? = some w := by
          cases hh : (v' :: vs').getLast? with
          | none => simp at hh
          | some w => exact ⟨w, rfl⟩
        obtain ⟨w, hw⟩ := hsome
        rw [hw, getLast?_cons_of_some _ hw]
    · rw [valuesOf, if_neg h]
      cases (valuesOf rest k).getLast? <;>
        simp [dictGet_dictSet_ne _ _ (fun e => h e.symm)]

theorem keys_foldl_dictSet (ps : List (String × String)) :
    ∀ (d0 : List (String × String)),
    (ps.foldl (fun d p => dictSet d p.1 p.2) d0).map Prod.fst =
      d0.map Prod.fst ++ firstNewKeys (d0.map Prod.fst) (ps.map Prod.fst) := by
  induction ps with
  | nil => intro d0; simp [firstNewKeys]
  | cons p rest ih =>
    intro d0
    rw [List.foldl_cons, ih, List.map_cons, firstNewKeys]
    by_cases h : dictHas d0 p.1
    · have hmem : p.1 ∈ d0.map Prod.fst := (dictHas_iff_mem_keys d0 p.1).mp h
      rw [keys_dictSet_of_has _ _ _ h, if_pos hmem]
    · have hmem : p.1 ∉ d0.map Prod.fst := by
        intro hc
        exact h ((dictHas_iff_mem_keys d0 p.1).mpr hc)
      rw [keys_dictSet_of_not_has _ _ _ (Bool.not_eq_true _ ▸ eq_false_of_ne_true h),
        if_neg hmem, List.append_assoc, List.singleton_append]

/-- C3: the PBS `-l` merge turns the comma-separated `key=value` tokens
of a multi-valued `-l` argument into one comma-joined string whose
entry for each resource key carries the LAST supplied value (a later
occurrence overwrites an earlier one) and whose distinct keys appear in
first-appearance order; in particular `-l` supplied as
`["walltime=1:00:00", "mem=4gb,walltime=2:00:00"]` merges to
`"walltime=2:00:00,mem=4gb"`. -/
theorem pbs_resource_merge
    (ls : List String) (prs : List (String × String))
    (hprs : resourcePairs ((ls.map splitComma).flatten) = .ok prs) :
    (∃ rd : List (String × String),
      PBSHandler.mergeResourceLists ls =
        .ok (String.intercalate "," (rd.map (fun kv => kv.1 ++ "=" ++ kv.2))) ∧
      rd.map Prod.fst = firstNewKeys [] (prs.map Prod.fst) ∧
      ∀ k, dictGet rd k = (valuesOf prs k).getLast?) ∧
    PBSHandler.resolve_multi_args
        [("-l", Val.list [Val.scalar "walltime=1:00:00",
                          Val.scalar "mem=4gb,walltime=2:00:00"])] =
      .ok [("-l", Val.scalar "walltime=2:00:00,mem=4gb")] := by
  constructor
  · refine ⟨prs.foldl (fun d p => dictSet d p.1 p.2) [], ?_, ?_, ?_⟩
    · rw [PBSHandler.mergeResourceLists, insertResources_eq_resourcePairs, hprs]
      rfl
    · simpa using keys_foldl_dictSet prs []
    · intro k
      rw [dictGet_foldl_dictSet prs [] k]
      cases (valuesOf prs k).getLast? <;> rfl
  · rfl

/-- Witness for C3 at the `-l` value of the claim's example. -/
theorem pbs_resource_merge_witness :
    PBSHandler.resolve_multi_args
        [("-l", Val.list [Val.scalar "walltime=1:00:00",
                          Val.scalar "mem=4gb,walltime=2:00:00"])] =
      .ok [("-l", Val.scalar "walltime=2:00:00,mem=4gb")] :=
  (pbs_resource_merge ["walltime=1:00:00", "mem=4gb,walltime=2:00:00"]
    [("walltime", "1:00:00"), ("mem", "4gb"), ("walltime", "2:00:00")] rfl).2

/-! ## `SLURMHandler.resolve_aliases` (lines 310-320) -/

mutual

/-- Python `repr` of a value as it appears inside a printed list
(faithful for strings without quotes or escape characters, which is all
that reaches this code path). -/
def pyRepr : Val → String
  | .scalar s => String.mk ('\'' :: s.data) ++ "'"
  | .list vs => "[" ++ pyReprList vs ++ "]"

/-- Python `", ".join(repr(v) for v in vs)`. -/
def pyReprList : List Val → String
  | [] => ""
  | [v] => pyRepr v
  | v :: rest => pyRepr v ++ ", " ++ pyReprList rest

end

/-- Python `str(v)` as used by `"gpu:{}".format(...)`: a scalar prints
as itself, a list as its `repr`. -/
def pyStr : Val → String
  | .scalar s => s
  | .list vs => "[" ++ pyReprList vs ++ "]"

namespace SLURMHandler

/-- Second rewrite of `resolve_aliases`: `--gpu N` → `--gres gpu:N`
(the `pop` removes `--gpu`, then the assignment appends `--gres`),
asserting `--gres` was not already present. -/
def resolveGpu (args : Args) : Except String Args :=
  match dictGet args "--gpu" with
  | some v =>
    if dictHas args "--gres" then
      .error "Both --gpu and --gres were found in SLURM arguments."
    else
      .ok (dictSet (dictPop args "--gpu") "--gres"
        (.scalar ("gpu:" ++ pyStr v)))
  | none => .ok args

/-- `SLURMHandler.resolve_aliases`: `--cores` → `--cpus-per-task`
(value moved by `pop` then assignment, so the target key is appended at
the end), asserting `--cpus-per-task` was not already present; then the
`--gpu` rewrite. -/
def resolve_aliases (args : Args) : Except String Args :=
  match dictGet args "--cores" with
  | some v =>
    if dictHas args "--cpus-per-task" then
      .error "Both --cores and --cpus-per-task were found in SLURM arguments."
    else
      resolveGpu (dictSet (dictPop args "--cores") "--cpus-per-task" v)
  | none => resolveGpu args

end SLURMHandler

/-- C6: SLURM alias resolution.  A mapping with `--cores` and without
`--cpus-per-task` (and no `--gpu`, which the second rewrite would also
touch) has `--cores` replaced by `--cpus-per-task` carrying the same
value, every other key untouched — so `{--cores: 4}` becomes
`{--cpus-per-task: 4}`; a mapping with both `--cores` and
`--cpus-per-task` fails; analogously `--gpu N` rewrites to
`--gres gpu:N`, and the simultaneous presence of `--gpu` and `--gres`
fails. -/
theorem slurm_resolve_aliases_spec :
    (∀ (args : Args),
        dictHas args "--cores" = true → dictHas args "--cpus-per-task" = true →
        SLURMHandler.resolve_aliases args =
          .error "Both --cores and --cpus-per-task were found in SLURM arguments.") ∧
    (∀ (args : Args),
        dictHas args "--gpu" = true → dictHas args "--gres" = true →
        ∃ e, SLURMHandler.resolve_aliases args = .error e) ∧
    (∀ (args : Args) (v : Val),
        NodupKeys args →
        dictGet args "--cores" = some v →
        dictHas args "--cpus-per-task" = false →
        dictGet args "--gpu" = none →
        ∃ args', SLURMHandler.resolve_aliases args = .ok args' ∧
          dictGet args' "--cpus-per-task" = some v ∧
          dictGet args' "--cores" = none ∧
          ∀ k, k ≠ "--cores" → k ≠ "--cpus-per-task" →
            dictGet args' k = dictGet args k) ∧
    (∀ (args : Args) (v : Val),
        NodupKeys args →
        dictGet args "--gpu" = some v →
        dictHas args "--gres" = false →
        dictGet args "--cores" = none →
        ∃ args', SLURMHandler.resolve_aliases args = .ok args' ∧
          dictGet args' "--gres" = some (.scalar ("gpu:" ++ pyStr v)) ∧
          dictGet args' "--gpu" = none ∧
          ∀ k, k ≠ "--gpu" → k ≠ "--gres" →
            dictGet args' k = dictGet args k) ∧
    SLURMHandler.resolve_aliases [("--cores", Val.scalar "4")] =
      .ok [("--cpus-per-task", Val.scalar "4")] ∧
    SLURMHandler.resolve_aliases [("--gpu", Val.scalar "2")] =
      .ok [("--gres", Val.scalar "gpu:2")] := by
  refine ⟨?_, ?_, ?_, ?_, rfl, rfl⟩
  · intro args h1 h2
    obtain ⟨v, hv⟩ := (dictHas_iff_exists args "--cores").mp h1
    simp [SLURMHandler.resolve_aliases, hv, h2]
  · intro args h1 h2
    obtain ⟨v, hv⟩ := (dictHas_iff_exists args "--gpu").mp h1
    cases hc : dictGet args "--cores" with
    | none =>
      refine ⟨"Both --gpu and --gres were found in SLURM arguments.", ?_⟩
      simp [SLURMHandler.resolve_aliases, hc, SLURMHandler.resolveGpu, hv, h2]
    | some vc =>
      by_cases hcp : dictHas args "--cpus-per-task"
      · refine ⟨"Both --cores and --cpus-per-task were found in SLURM arguments.", ?_⟩
        simp [SLURMHandler.resolve_aliases, hc, hcp]
      · have hgpu : dictGet (dictSet (dictPop args "--cores")
            "--cpus-per-task" vc) "--gpu" = some v := by
          rw [dictGet_dictSet_ne _ _ (by decide),
            dictGet_dictPop_ne _ (by decide), hv]
        have hgres : dictHas (dictSet (dictPop args "--cores")
            "--cpus-per-task" vc) "--gres" = true := by
          obtain ⟨w, hw⟩ := (dictHas_iff_exists args "--gres").mp h2
          refine (dictHas_iff_exists _ "--gres").mpr ⟨w, ?_⟩
          rw [dictGet_dictSet_ne _ _ (by decide),
            dictGet_dictPop_ne _ (by decide), hw]
        refine ⟨"Both --gpu and --gres were found in SLURM arguments.", ?_⟩
        simp [SLURMHandler.resolve_aliases, hc, hcp,
          SLURMHandler.resolveGpu, hgpu, hgres]
  · intro args v hnd hv hcp hgpu
    have hgpu' : dictGet (dictSet (dictPop args "--cores")
        "--cpus-per-task" v) "--gpu" = none := by
      rw [dictGet_dictSet_ne _ _ (by decide),
        dictGet_dictPop_ne _ (by decide), hgpu]
    have h0 : SLURMHandler.resolve_aliases args =
        .ok (dictSet (dictPop args "--cores") "--cpus-per-task" v) := by
      simp [SLURMHandler.resolve_aliases, hv, hcp,
        SLURMHandler.resolveGpu, hgpu']
    refine ⟨_, h0, ?_, ?_, ?_⟩
    · rw [dictGet_dictSet_self]
    · rw [dictGet_dictSet_ne _ _ (by decide), dictGet_dictPop_self _ _ hnd]
    · intro k hk1 hk2
      rw [dictGet_dictSet_ne _ _ hk2, dictGet_dictPop_ne _ hk1]
  · intro args v hnd hv hgres hcores
    have h0 : SLURMHandler.resolve_aliases args =
        .ok (dictSet (dictPop args "--gpu") "--gres"
          (.scalar ("gpu:" ++ pyStr v))) := by
      simp [SLURMHandler.resolve_aliases, hcores,
        SLURMHandler.resolveGpu, hv, hgres]
    refine ⟨_, h0, ?_, ?_, ?_⟩
    · rw [dictGet_dictSet_self]
    · rw [dictGet_dictSet_ne _ _ (by decide), dictGet_dictPop_self _ _ hnd]
    · intro k hk1 hk2
      rw [dictGet_dictSet_ne _ _ hk2, dictGet_dictPop_ne _ hk1]

/-- Witness for C6: the two conflict failures at concrete mappings, and
the two rewrites applied through the quantified parts of the theorem at
concrete mappings carrying an extra untouched key. -/
theorem slurm_resolve_aliases_spec_witness :
    SLURMHandler.resolve_aliases
        [("--cores", Val.scalar "4"), ("--cpus-per-task", Val.scalar "8")] =
      .error "Both --cores and --cpus-per-task were found in SLURM arguments." ∧
    (∃ e, SLURMHandler.resolve_aliases
        [("--gpu", Val.scalar "1"), ("--gres", Val.scalar "gpu:2")] =
      .error e) ∧
    (∃ args', SLURMHandler.resolve_aliases
        [("-J", Val.scalar "x"), ("--cores", Val.scalar "4")] = .ok args' ∧
      dictGet args' "--cpus-per-task" = some (Val.scalar "4") ∧
      dictGet args' "--cores" = none ∧
      ∀ k, k ≠ "--cores" → k ≠ "--cpus-per-task" →
        dictGet args' k = dictGet [("-J", Val.scalar "x"),
          ("--cores", Val.scalar "4")] k) := by
  refine ⟨?_, ?_, ?_⟩
  · exact slurm_resolve_aliases_spec.1 _ rfl rfl
  · exact slurm_resolve_aliases_spec.2.1 _ rfl rfl
  · exact slurm_resolve_aliases_spec.2.2.1 _ (Val.scalar "4")
      (by simp [NodupKeys]) rfl rfl rfl

/-! ## Job-id extraction (lines 336-347 and 385-393) -/

/-- The literal part of the sbatch output pattern,
`"Submitted batch job "`. -/
def sbatchPfx : List Char := "Submitted batch job ".data

/-- One attempted match of `Submitted batch job [0-9]+` at the head of
`s`: the literal prefix followed by a maximal nonempty digit run
(`[0-9]+` is greedy).  Returns the matched text and the remainder. -/
def matchAt (s : List Char) : Option (List Char × List Char) :=
  if sbatchPfx.isPrefixOf s then
    let tail := s.drop sbatchPfx.length
    let digits := tail.takeWhile Char.isDigit
    if digits.isEmpty then none
    else some (sbatchPfx ++ digits, tail.drop digits.length)
  else none

/-- `re.findall(prefix + r"[0-9]+", stdout)`: scan left to right,
collect the leftmost non-overlapping matches, resuming after each
match.  The fuel argument, initialised to the string length, serves
structural termination only: every step consumes at least one
character, so it never runs out. -/
def findAllAux : Nat → List Char → List (List Char)
  | 0, _ => []
  | _ + 1, [] => []
  | fuel + 1, c :: rest =>
    match matchAt (c :: rest) with
    | some (m, rest') => m :: findAllAux fuel rest'
    | none => findAllAux fuel rest

/-- The match list of `re.findall("Submitted batch job [0-9]+", stdout)`. -/
def findall (stdout : String) : List String :=
  (findAllAux stdout.data.length stdout.data).map String.mk

/-- The assertion message of `SLURMHandler.jobid_from_stdout`. -/
def sbatchErrMsg (stdout stderr : String) : String :=
  "Unexpected stdout from the sbatch command:\nSTDOUT:\n" ++ stdout ++
    "\n" ++ "----------" ++ "\nSTDERR:\n" ++ stderr

/-- The assertion message of `PBSHandler.jobid_from_stdout`. -/
def qsubErrMsg (stdout stderr : String) : String :=
  "Unexpected stdout from the qsub command:\nSTDOUT:\n" ++ stdout ++
    "\n" ++ "----------" ++ "\nSTDERR:\n" ++ stderr

namespace SLURMHandler

/-- `SLURMHandler.jobid_from_stdout`: assert exactly one regex match,
then strip the literal prefix from it. -/
def jobid_from_stdout (stdout stderr : String) : Except String String :=
  match findall stdout with
  | [m] => .ok (String.mk (m.data.drop sbatchPfx.length))
  | _ => .error (sbatchErrMsg stdout stderr)

end SLURMHandler

namespace PBSHandler

/-- `PBSHandler.jobid_from_stdout`: assert non-empty stdout, then take
`stdout.split(".")[0]`, the longest prefix without a `'.'`. -/
def jobid_from_stdout (stdout stderr : String) : Except String String :=
  if 0 < stdout.length then
    .ok (String.mk (stdout.data.takeWhile (fun c => c ≠ '.')))
  else
    .error (qsubErrMsg stdout stderr)

end PBSHandler

/-! ## The command-report store (lines 229-253)

`update_cmd_report` loads the JSON file, mutates the parsed dict and
dumps it back; the loaded content is the `reports` parameter and the
written content is in the result.  The handler fields used to build the
new report (name, command string, experiment dir, args, flags) and
`datetime.now()` are parameters. -/

/-- A key of the in-memory report dict: entries parsed from the JSON
file carry string keys, while `update_cmd_report` inserts under
`int(jobid)`.  A Python `int` and `str` are never equal dict keys. -/
inductive JKey where
  | str : String → JKey
  | int : Int → JKey
deriving DecidableEq

/-- One job's stored report (the `new_report` dict of lines 243-250). -/
structure Report where
  name : Option Val
  cmd : String
  exp_dir : String
  scheduler_args : Args
  scheduler_flags : List String
  submission_time : String

/-- The whole report file: cluster name → job id → report. -/
abbrev Store := List (String × List (JKey × Report))

/-- Whitespace stripping on both ends, as `int()` applies to its
argument. -/
def pyStrip (cs : List Char) : List Char :=
  ((cs.dropWhile Char.isWhitespace).reverse.dropWhile Char.isWhitespace).reverse

/-- Python `int(s)` in base 10: strip surrounding whitespace, optional
sign, at least one digit.  (Digit-grouping underscores are not
modelled; no caller produces them.) -/
def pyInt (s : String) : Except String Int :=
  let core : Int × List Char :=
    match pyStrip s.data with
    | '-' :: rest => (-1, rest)
    | '+' :: rest => (1, rest)
    | l => (1, l)
  if core.2 ≠ [] ∧ core.2.all Char.isDigit then
    .ok (core.1 * core.2.foldl (fun n c => 10 * n + ((c.toNat : Int) - 48)) 0)
  else
    .error ("invalid literal for int() with base 10: " ++ s)

/-- The duplicate-id message printed by `update_cmd_report`. -/
def duplicateIdMsg (jobid : Int) (cluster_name : String) : String :=
  "Error in updating the cmd reports: Job ID " ++ toString jobid ++
    " already exists in the command report under cluster " ++
    cluster_name ++ "."

/-- `SchedulerHandler.update_cmd_report`.  The result carries the
report-file content after the call together with the printed lines: on
the duplicate-id path the function returns before `json.dump`, so the
file keeps its loaded content; `int(jobid)` runs before both the
duplicate check and the insertion and its `ValueError` propagates. -/
def update_cmd_report (reports : Store) (cluster_name : String)
    (job_name : Option Val) (script_args_str exp_dir : String)
    (args : Args) (flags : List String) (now : String)
    (jobid_str : String) : Except String (Store × List String) :=
  -- `reports[cluster_name]` after the ensure step of lines 235-236
  let part := (dictGet reports cluster_name).getD []
  let reports1 :=
    if dictHas reports cluster_name then reports
    else dictSet reports cluster_name []
  match pyInt jobid_str with
  | .error e => .error e
  | .ok jobid =>
    if dictHas part (.int jobid) then
      .ok (reports, [duplicateIdMsg jobid cluster_name])
    else
      let new_report : Report :=
        ⟨job_name, script_args_str, exp_dir, args, flags, now⟩
      .ok (dictSet reports1 cluster_name
        (dictSet part (.int jobid) new_report), [])

/-- The scheduler branch of `SchedulerHandler.submit` after the child
process has exited (lines 212-227): `jobid_from_stdout` runs BEFORE
`update_cmd_report`, so a failed extraction propagates with the report
file untouched; otherwise the file is updated and the child's
`returncode` is returned.  The first component is the report-file
content after the call. -/
def submitAfterExec
    (jobidFn : String → String → Except String String)
    (reports : Store) (cluster_name : String) (job_name : Option Val)
    (script_args_str exp_dir : String) (args : Args) (flags : List String)
    (now : String) (stdout stderr : String) (returncode : Int) :
    Store × Except String Int :=
  match jobidFn stdout stderr with
  | .error e => (reports, .error e)
  | .ok jobid =>
    match update_cmd_report reports cluster_name job_name script_args_str
        exp_dir args flags now jobid with
    | .error e => (reports, .error e)
    | .ok (reports', _printed) => (reports', .ok returncode)

/-- C4: job-id extraction.  SLURM stdout with exactly one match of
`Submitted batch job <digits>` yields those digits (e.g.
`"Submitted batch job 12345\n"` yields `"12345"`), and zero or two or
more matches fail with the unexpected-output assertion; PBS non-empty
stdout yields the part before the first `'.'` (e.g.
`"98765.pbs-server\n"` yields `"98765"`) and empty stdout fails; and
whenever extraction fails, `submit` propagates the error before
`update_cmd_report` runs, leaving the report store unchanged. -/
theorem jobid_extraction_spec :
    (∀ (stdout stderr : String) (ds : List Char),
        findall stdout = [String.mk (sbatchPfx ++ ds)] →
        SLURMHandler.jobid_from_stdout stdout stderr = .ok (String.mk ds)) ∧
    (∀ (stdout stderr : String),
        (findall stdout).length ≠ 1 →
        SLURMHandler.jobid_from_stdout stdout stderr =
          .error (sbatchErrMsg stdout stderr)) ∧
    SLURMHandler.jobid_from_stdout "Submitted batch job 12345\n" "" =
      .ok "12345" ∧
    (∀ (stdout stderr : String),
        0 < stdout.length →
        PBSHandler.jobid_from_stdout stdout stderr =
          .ok (String.mk (stdout.data.takeWhile (fun c => c ≠ '.')))) ∧
    PBSHandler.jobid_from_stdout "98765.pbs-server\n" "" = .ok "98765" ∧
    (∀ stderr : String,
        PBSHandler.jobid_from_stdout "" stderr =
          .error (qsubErrMsg "" stderr)) ∧
    (∀ (jobidFn : String → String → Except String String)
        (reports : Store) (cluster_name : String) (job_name : Option Val)
        (script_args_str exp_dir : String) (args : Args)
        (flags : List String) (now stdout stderr : String)
        (returncode : Int) (e : String),
        jobidFn stdout stderr = .error e →
        submitAfterExec jobidFn reports cluster_name job_name
            script_args_str exp_dir args flags now stdout stderr returncode =
          (reports, .error e)) := by
  refine ⟨?_, ?_, rfl, ?_, rfl, fun stderr => rfl, ?_⟩
  · intro stdout stderr ds h
    simp only [SLURMHandler.jobid_from_stdout, h]
    show Except.ok (String.mk ((sbatchPfx ++ ds).drop sbatchPfx.length)) = _
    rw [List.drop_left]
  · intro stdout stderr h
    rcases hm : findall stdout with _ | ⟨m, ms⟩
    · simp only [SLURMHandler.jobid_from_stdout, hm]
    · cases ms with
      | nil => exact absurd (by rw [hm]; rfl) h
      | cons m2 ms2 => simp only [SLURMHandler.jobid_from_stdout, hm]
  · intro stdout stderr h
    simp only [PBSHandler.jobid_from_stdout, if_pos h]
  · intro jobidFn reports cluster_name job_name script_args_str exp_dir
      args flags now stdout stderr returncode e h
    simp only [submitAfterExec, h]

/-- Witness for C4: the quantified parts applied at the claim's own
concrete outputs — a clean sbatch stdout, an sbatch stdout with two
matches, a clean qsub stdout, and a failing extraction leaving a
one-entry store untouched. -/
theorem jobid_extraction_spec_witness :
    SLURMHandler.jobid_from_stdout "Submitted batch job 777\n" "" =
      .ok "777" ∧
    SLURMHandler.jobid_from_stdout
        "Submitted batch job 1\nSubmitted batch job 2\n" "" =
      .error (sbatchErrMsg "Submitted batch job 1\nSubmitted batch job 2\n" "") ∧
    PBSHandler.jobid_from_stdout "42.head-node\n" "" = .ok "42" ∧
    submitAfterExec SLURMHandler.jobid_from_stdout
        [("plai", [(JKey.str "7", ⟨none, "c", "d", [], [], "t"⟩)])]
        "plai" none "cmd" "dir" [] [] "now" "" "bad" 1 =
      ([("plai", [(JKey.str "7", ⟨none, "c", "d", [], [], "t"⟩)])],
        .error (sbatchErrMsg "" "bad")) := by
  refine ⟨?_, ?_, ?_, ?_⟩
  · exact (jobid_extraction_spec.1 "Submitted batch job 777\n" "" "777".data rfl).trans rfl
  · exact jobid_extraction_spec.2.1
      "Submitted batch job 1\nSubmitted batch job 2\n" "" (by decide)
  · exact (jobid_extraction_spec.2.2.2.1 "42.head-node\n" "" (by decide)).trans rfl
  · exact jobid_extraction_spec.2.2.2.2.2.2 SLURMHandler.jobid_from_stdout
      [("plai", [(JKey.str "7", ⟨none, "c", "d", [], [], "t"⟩)])]
      "plai" none "cmd" "dir" [] [] "now" "" "bad" 1
      (sbatchErrMsg "" "bad") rfl

/-- Look up one job's report: cluster partition, then job key. -/
def lookupJob (reports : Store) (cluster : String) (jk : JKey) : Option Report :=
  (dictGet reports cluster).bind (fun part => dictGet part jk)

/-- C5: for every report store, the first `update_cmd_report` call for
a (cluster, job id) inserts the report under that pair while leaving
every other cluster partition and every other job id's report
unchanged; a second call with the same cluster and job id is a no-op
that keeps the report file as is, prints the duplicate warning, and
raises no exception. -/
theorem update_cmd_report_insert_then_duplicate
    (reports : Store) (cluster : String) (job_name : Option Val)
    (sas ed : String) (args : Args) (flags : List String) (now : String)
    (jobid_str : String) (n : Int)
    (hn : pyInt jobid_str = .ok n)
    (hfirst : lookupJob reports cluster (.int n) = none) :
    ∃ reports',
      update_cmd_report reports cluster job_name sas ed args flags now
          jobid_str = .ok (reports', []) ∧
      lookupJob reports' cluster (.int n) =
        some ⟨job_name, sas, ed, args, flags, now⟩ ∧
      (∀ c, c ≠ cluster → dictGet reports' c = dictGet reports c) ∧
      (∀ jk, jk ≠ .int n →
        lookupJob reports' cluster jk = lookupJob reports cluster jk) ∧
      (∀ (job_name2 : Option Val) (sas2 ed2 : String) (args2 : Args)
          (flags2 : List String) (now2 : String),
        update_cmd_report reports' cluster job_name2 sas2 ed2 args2 flags2
            now2 jobid_str = .ok (reports', [duplicateIdMsg n cluster])) := by
  have hpart : dictGet ((dictGet reports cluster).getD []) (JKey.int n) = none := by
    rcases hc : dictGet reports cluster with _ | p
    · rfl
    · simpa [lookupJob, hc] using hfirst
  have hhas : dictHas ((dictGet reports cluster).getD []) (JKey.int n) = false := by
    simp [dictHas, hpart]
  refine ⟨dictSet (if dictHas reports cluster then reports
      else dictSet reports cluster []) cluster
      (dictSet ((dictGet reports cluster).getD []) (.int n)
        ⟨job_name, sas, ed, args, flags, now⟩), ?_, ?_, ?_, ?_, ?_⟩
  · simp only [update_cmd_report, hn, hhas, Bool.false_eq_true, if_false]
  · rw [lookupJob, dictGet_dictSet_self]
    show dictGet (dictSet ((dictGet reports cluster).getD []) (.int n) _)
      (.int n) = _
    rw [dictGet_dictSet_self]
  · intro c hc
    rw [dictGet_dictSet_ne _ _ hc]
    by_cases hrc : dictHas reports cluster
    · rw [if_pos hrc]
    · rw [if_neg hrc, dictGet_dictSet_ne _ _ hc]
  · intro jk hjk
    rw [lookupJob, dictGet_dictSet_self]
    show dictGet (dictSet ((dictGet reports cluster).getD []) (.int n) _) jk =
      lookupJob reports cluster jk
    rw [dictGet_dictSet_ne _ _ hjk]
    rcases hc : dictGet reports cluster with _ | p
    · simp [lookupJob, hc, dictGet]
    · simp [lookupJob, hc]
  · intro job_name2 sas2 ed2 args2 flags2 now2
    have hget : dictGet (dictSet (if dictHas reports cluster then reports
        else dictSet reports cluster []) cluster
        (dictSet ((dictGet reports cluster).getD []) (.int n)
          ⟨job_name, sas, ed, args, flags, now⟩)) cluster =
        some (dictSet ((dictGet reports cluster).getD []) (.int n)
          ⟨job_name, sas, ed, args, flags, now⟩) :=
      dictGet_dictSet_self _ _ _
    have hhas2 : dictHas (dictSet ((dictGet reports cluster).getD [])
        (JKey.int n) ⟨job_name, sas, ed, args, flags, now⟩) (JKey.int n) = true := by
      simp [dictHas, dictGet_dictSet_self]
    simp only [update_cmd_report, hn, hget, Option.getD_some, hhas2, if_true]

/-- Witness for C5 at a concrete store: inserting job id `8` under
cluster `plai` (store already holding job `7`), then repeating the
call. -/
theorem update_cmd_report_insert_then_duplicate_witness :
    ∃ reports',
      update_cmd_report [("plai", [(JKey.int 7, ⟨none, "c0", "d0", [], [], "t0"⟩)])]
          "plai" none "c1" "d1" [] [] "t1" "8" = .ok (reports', []) ∧
      lookupJob reports' "plai" (.int 8) = some ⟨none, "c1", "d1", [], [], "t1"⟩ ∧
      (∀ c, c ≠ "plai" → dictGet reports' c =
        dictGet [("plai", [(JKey.int 7, ⟨none, "c0", "d0", [], [], "t0"⟩)])] c) ∧
      (∀ jk, jk ≠ JKey.int 8 → lookupJob reports' "plai" jk =
        lookupJob [("plai", [(JKey.int 7, ⟨none, "c0", "d0", [], [], "t0"⟩)])]
          "plai" jk) ∧
      (∀ (job_name2 : Option Val) (sas2 ed2 : String) (args2 : Args)
          (flags2 : List String) (now2 : String),
        update_cmd_report reports' "plai" job_name2 sas2 ed2 args2 flags2
            now2 "8" = .ok (reports', [duplicateIdMsg 8 "plai"])) :=
  update_cmd_report_insert_then_duplicate
    [("plai", [(JKey.int 7, ⟨none, "c0", "d0", [], [], "t0"⟩)])]
    "plai" none "c1" "d1" [] [] "t1" "8" 8 rfl rfl

/-- C10 (implicit): `update_cmd_report` converts the incoming job id to
an `int` before both the duplicate check and the insertion, while a
store parsed from the persisted JSON file has string keys only; a
string key never equals an `int` key, so for a store already holding
the same id under its string key the duplicate no-op branch is NOT
taken: the call inserts a second, `int`-keyed entry for the same job id
and prints no warning, leaving the string-keyed entry in place. -/
theorem update_cmd_report_string_key_not_duplicate
    (reports : Store) (cluster : String) (job_name : Option Val)
    (sas ed : String) (args : Args) (flags : List String) (now : String)
    (jobid_str : String) (n : Int) (r0 : Report)
    (hn : pyInt jobid_str = .ok n)
    (hstr : lookupJob reports cluster (.str jobid_str) = some r0)
    (hint : lookupJob reports cluster (.int n) = none) :
    ∃ reports',
      update_cmd_report reports cluster job_name sas ed args flags now
          jobid_str = .ok (reports', []) ∧
      lookupJob reports' cluster (.str jobid_str) = some r0 ∧
      lookupJob reports' cluster (.int n) =
        some ⟨job_name, sas, ed, args, flags, now⟩ := by
  obtain ⟨reports', hok, hnew, _hc, hother, _⟩ :=
    update_cmd_report_insert_then_duplicate reports cluster job_name sas ed
      args flags now jobid_str n hn hint
  refine ⟨reports', hok, ?_, hnew⟩
  rw [hother (.str jobid_str) (fun h => JKey.noConfusion h)]
  exact hstr

/-- Witness for C10: a store loaded from file holding job id `12345`
under the STRING key `"12345"` for cluster `plai`; recording job id
`12345` again inserts a second entry under the `int` key instead of
taking the duplicate no-op branch. -/
theorem update_cmd_report_string_key_not_duplicate_witness :
    ∃ reports',
      update_cmd_report
          [("plai", [(JKey.str "12345", ⟨none, "c0", "d0", [], [], "t0"⟩)])]
          "plai" none "c1" "d1" [] [] "t1" "12345" = .ok (reports', []) ∧
      lookupJob reports' "plai" (.str "12345") =
        some ⟨none, "c0", "d0", [], [], "t0"⟩ ∧
      lookupJob reports' "plai" (.int 12345) =
        some ⟨none, "c1", "d1", [], [], "t1"⟩ :=
  update_cmd_report_string_key_not_duplicate
    [("plai", [(JKey.str "12345", ⟨none, "c0", "d0", [], [], "t0"⟩)])]
    "plai" none "c1" "d1" [] [] "t1" "12345" 12345
    ⟨none, "c0", "d0", [], [], "t0"⟩ rfl rfl rfl

/-! ## `submit`'s return value and the process exit code
(lines 172-174, 227, 564-566) -/

/-- The value `SchedulerHandler.submit` returns.  The local branch
(lines 173-174) runs `os.system(" ".join(script_args))`, DISCARDS the
status `os.system` returns and falls off the end of the function, so
Python returns `None`; the scheduler branch returns the child's
`returncode` (line 227). -/
def submitReturnValue (is_local : Bool) (local_status returncode : Int) :
    Option Int :=
  if is_local then none else some returncode

/-- `sys.exit(x)` at line 566: `sys.exit(None)` exits with status 0,
`sys.exit(n)` with status `n`. -/
def sysExitStatus : Option Int → Int
  | none => 0
  | some n => n

/-- C9, counterexample: in `--local` mode with the script exiting with
status 3, `submit` returns `None` (the `os.system` status on line 174
is discarded and the branch has no `return`), so `sys.exit(None)` gives
process exit code 0, not 3. -/
theorem local_exit_code_counterexample :
    submitReturnValue true 3 0 = none ∧
    sysExitStatus (submitReturnValue true 3 0) = 0 ∧ (0 : Int) ≠ 3 :=
  ⟨rfl, rfl, by decide⟩

/-- C9 (amended): in normal mode the process exit code equals the
scheduler's own submission exit code — when id extraction and the
report update succeed, `submit` returns the child's `returncode` and
`sys.exit` propagates it; in `--local` mode `submit` discards the
locally executed script's status and returns `None`, so the process
exits 0 regardless of that status. -/
theorem submit_exit_code :
    (∀ (jobidFn : String → String → Except String String)
        (reports : Store) (cluster_name : String) (job_name : Option Val)
        (sas ed : String) (args : Args) (flags : List String)
        (now stdout stderr : String) (rc : Int) (jobid : String)
        (out : Store × List String),
        jobidFn stdout stderr = .ok jobid →
        update_cmd_report reports cluster_name job_name sas ed args flags
            now jobid = .ok out →
        (submitAfterExec jobidFn reports cluster_name job_name sas ed args
            flags now stdout stderr rc).2 = .ok rc) ∧
    (∀ local_status rc : Int,
        sysExitStatus (submitReturnValue false local_status rc) = rc) ∧
    (∀ local_status rc : Int,
        submitReturnValue true local_status rc = none) ∧
    sysExitStatus none = 0 := by
  refine ⟨?_, fun _ _ => rfl, fun _ _ => rfl, rfl⟩
  intro jobidFn reports cluster_name job_name sas ed args flags now stdout
    stderr rc jobid out hj hu
  obtain ⟨reports', printed⟩ := out
  simp only [submitAfterExec, hj, hu]

/-- Witness for C9 (amended): a concrete successful SLURM submission
propagating exit code 5, and the local branch returning `None`. -/
theorem submit_exit_code_witness :
    (submitAfterExec SLURMHandler.jobid_from_stdout [] "plai" none "c" "d"
        [] [] "t" "Submitted batch job 9\n" "" 5).2 = .ok 5 ∧
    sysExitStatus (submitReturnValue false 0 5) = 5 ∧
    submitReturnValue true 3 0 = none := by
  refine ⟨?_, submit_exit_code.2.1 0 5, submit_exit_code.2.2.1 3 0⟩
  exact submit_exit_code.1 SLURMHandler.jobid_from_stdout [] "plai" none
    "c" "d" [] [] "t" "Submitted batch job 9\n" "" 5 "9"
    ([("plai", [(JKey.int 9, ⟨none, "c", "d", [], [], "t"⟩)])], []) rfl rfl

/-! ## Handler construction and the `--script` override
(lines 88-135 and 293-300) -/

/-- The handler fields observable through `submit`.  In local mode the
base constructor never assigns the command / script attributes
(`none`); `submisison_command` keeps the source's own spelling. -/
structure HandlerState where
  args : Args
  flags : List String
  is_local : Bool
  submisison_command : Option String
  submit_job_script : Option String

namespace SchedulerHandler

/-- `SchedulerHandler.__init__` (lines 89-116): resolve multi-args,
peel `--local`; in scheduler mode run `verify_args` (the job-name check
and the `--script` override pop of lines 126-135), `resolve_aliases`,
the submit-script existence assertion of lines 110-112, and
`set_logging_paths`.  The scheduler-specific methods are parameters
(virtual dispatch), the filesystem is `fileExists`, `rootDir` stands
for `ROOT_DIR`, and `Path / name` is modelled as `rootDir ++ "/" ++
name` (it raises `TypeError` on a list value). -/
def initBase (resolveMulti resolveAliases : Args → Except String Args)
    (job_name_arguments : List String) (setLoggingPaths : Args → Args)
    (rootDir : String) (fileExists : String → Bool)
    (args0 : Args) (flags0 : List String) : Except String HandlerState :=
  match resolveMulti args0 with
  | .error e => .error e
  | .ok args1 =>
    if flags0.contains "--local" then
      .ok ⟨args1, flags0.erase "--local", true, none, none⟩
    else if job_name_arguments.all (fun x => !(dictHas args1 x)) then
      .error ("Experiment name not provided. Use " ++
        String.intercalate " or " job_name_arguments ++ " to provide one.")
    else
      match
        (match dictGet args1 "--script" with
         | none => .ok (rootDir ++ "/_run.sh", args1)
         | some (.scalar s) => .ok (rootDir ++ "/" ++ s, dictPop args1 "--script")
         | some (.list _) =>
           .error "TypeError: unsupported operand type for Path / list"
         : Except String (String × Args)) with
      | .error e => .error e
      | .ok (script, args2) =>
        match resolveAliases args2 with
        | .error e => .error e
        | .ok args3 =>
          if fileExists script then
            .ok ⟨setLoggingPaths args3, flags0, false, none, some script⟩
          else
            .error ("Missing submit job sctipt at " ++ script ++ ".")

end SchedulerHandler

namespace SLURMHandler

/-- `SLURMHandler.set_logging_paths` (lines 322-328). -/
def set_logging_paths (reportsDir : String) (args : Args) : Args :=
  if !(dictHas args "--output") && !(dictHas args "-o") then
    if dictHas args "--array" || dictHas args "-a" then
      dictSet args "--output" (.scalar (reportsDir ++ "/results-%A_%a-%x.out"))
    else
      dictSet args "--output" (.scalar (reportsDir ++ "/results-%j-%x.out"))
  else args

/-- `SLURMHandler.__init__` (lines 294-300): run the base constructor,
then set `submisison_command = "sbatch"`, REASSIGN `submit_job_script`
to `ROOT_DIR / "_run.sh"` and assert that this default exists. -/
def init (rootDir reportsDir : String) (fileExists : String → Bool)
    (args0 : Args) (flags0 : List String) : Except String HandlerState :=
  match SchedulerHandler.initBase resolve_multi_args resolve_aliases
      ["-J", "--job-name"] (set_logging_paths reportsDir) rootDir
      fileExists args0 flags0 with
  | .error e => .error e
  | .ok st =>
    if fileExists (rootDir ++ "/_run.sh") then
      .ok { st with submisison_command := some "sbatch",
                    submit_job_script := some (rootDir ++ "/_run.sh") }
    else
      .error ("Missing SLURM run sctipt at " ++ (rootDir ++ "/_run.sh") ++ ".")

end SLURMHandler

/-- C8: the claim's first half holds — with `--script alt.sh` resolved
to a non-existing path, construction fails with the missing-script
assertion before any process is spawned (`submit` runs only on a
constructed handler).  Its second half is a code bug: the base
constructor honors the override (third conjunct: `submit_job_script =
ROOT/alt.sh` after `SchedulerHandler.__init__`), but
`SLURMHandler.__init__` then reassigns `submit_job_script` to the
default `ROOT/_run.sh` (lines 296-297), so the final submission command
of lines 194-200 uses the default template, not the override — contrary
to the claim and to the module docstring of `--script`. -/
theorem script_override_discarded :
    SLURMHandler.init "ROOT" "RPT" (fun p => p == "ROOT/_run.sh")
        [("-J", Val.scalar "x"), ("--script", Val.scalar "alt.sh")] [] =
      .error "Missing submit job sctipt at ROOT/alt.sh." ∧
    SchedulerHandler.initBase SLURMHandler.resolve_multi_args
        SLURMHandler.resolve_aliases ["-J", "--job-name"]
        (SLURMHandler.set_logging_paths "RPT") "ROOT" (fun _ => true)
        [("-J", Val.scalar "x"), ("--script", Val.scalar "alt.sh")] [] =
      .ok ⟨[("-J", Val.scalar "x"),
            ("--output", Val.scalar "RPT/results-%j-%x.out")],
           [], false, none, some "ROOT/alt.sh"⟩ ∧
    SLURMHandler.init "ROOT" "RPT" (fun _ => true)
        [("-J", Val.scalar "x"), ("--script", Val.scalar "alt.sh")] [] =
      .ok ⟨[("-J", Val.scalar "x"),
            ("--output", Val.scalar "RPT/results-%j-%x.out")],
           [], false, some "sbatch", some "ROOT/_run.sh"⟩ ∧
    some "ROOT/_run.sh" ≠ some ("ROOT" ++ "/" ++ "alt.sh") :=
  ⟨rfl, rfl, rfl, by decide⟩

end JobSubmission
